import Mathlib

/-!
Verification of the ddPCR droplet-simulation repository: a shallow embedding
of the droplet data model, the call-corruption model, the geometry packer,
the statistics formulas, and the `DigitalPCRSimulator` state machine, with
theorems settling the spec's testable properties.  Stochastic draws (normal
diameter draws, Poisson counts, uniform corruption and position draws) are
passed in as explicit inputs, so every pipeline is a deterministic function
of its configuration and its draw streams.
-/

/-- The four droplet classifications (显示状态 in the source). -/
inductive Classification where
  | truePositive
  | falsePositive
  | trueNegative
  | falseNegative
deriving DecidableEq

/-- Per-droplet corruption state, as built by the loop over
`molecular_counts` in `droplets_simulation_new.py` (lines 52-69):
`count`, `is_false_negative`, `is_false_positive`. -/
structure DropletState where
  count : ℕ
  isFalseNegative : Bool
  isFalsePositive : Bool
deriving DecidableEq

/-- A placed droplet, the tuple `(x, y, radius, molecular_counts[idx])`
appended to `droplets` in the packing loop. -/
structure Placed where
  x : ℚ
  y : ℚ
  radius : ℚ
  count : ℕ
deriving DecidableEq

/-- One row of `droplet_data` in `droplets_simulation_new.py`
(直径/X坐标/Y坐标/拷贝数/显示状态; the brightness column is rendering
glue and is not modelled). -/
structure Row where
  diameterUm : ℚ
  x : ℚ
  y : ℚ
  count : ℕ
  classification : Classification
deriving DecidableEq

/-- Conversion factor `pixels_per_um = 37/100` from the source. -/
def pixelsPerUm : ℚ := 37/100

/-- `np.clip(x, lo, hi) = min(max(x, lo), hi)` on scalars. -/
def clip (x lo hi : ℚ) : ℚ := min (max x lo) hi

/-- `average_diameter_pixels = average_diameter_um * pixels_per_um`. -/
def avgDiameterPixels (avgUm : ℚ) : ℚ := avgUm * pixelsPerUm

/-- Pixel diameter back to micrometers: `diameters / pixels_per_um`. -/
def diameterUmOfPx (dpx : ℚ) : ℚ := dpx / pixelsPerUm

/-- Diameter clamping in `droplets_simulation_new.py` line 37:
`np.clip(d, average_diameter_pixels*0.8, average_diameter_pixels*1.2)`. -/
def newDiameterPx (avgUm raw : ℚ) : ℚ :=
  clip raw (avgDiameterPixels avgUm * (8/10)) (avgDiameterPixels avgUm * (12/10))

/-- Diameter clamping in `calculate_ddpcr_statistics`
(`droplets_simulation_data.py` line 36), in micrometers:
`np.clip(d, average_diameter_um*0.8, average_diameter_um*1.2)`. -/
def dataDiameterUm (avgUm raw : ℚ) : ℚ :=
  clip raw (avgUm * (8/10)) (avgUm * (12/10))

/-- Diameter clamping in `droplets_simulation.py` line 20:
`np.clip(diameters, 1, None)`, i.e. only a lower bound of 1 pixel. -/
def oldDiameterPx (raw : ℚ) : ℚ := max raw 1

/-- The corruption step of `droplets_simulation_new.py` (lines 55-69) for a
single droplet: a droplet with `count > 0` becomes a false negative when its
uniform draw `u` is below the dynamic false-negative rate, a droplet with
`count == 0` becomes a false positive when `u` is below the dynamic
false-positive rate. -/
def corruptDroplet (c : ℕ) (u dfn dfp : ℚ) : DropletState :=
  if 0 < c then ⟨c, decide (u < dfn), false⟩ else ⟨c, false, decide (u < dfp)⟩

/-- The corruption-and-count step of `calculate_ddpcr_statistics`
(`droplets_simulation_data.py` lines 54-64), which directly produces the
classification bucket a droplet is counted in. -/
def classifyDroplet (c : ℕ) (u dfn dfp : ℚ) : Classification :=
  if 0 < c then
    (if u < dfn then Classification.falseNegative else Classification.truePositive)
  else
    (if u < dfp then Classification.falsePositive else Classification.trueNegative)

/-- The classification branch of the drawing loop in
`droplets_simulation_new.py` (lines 100-121): the 显示状态 is false
negative if the state says so, else false positive if the state says so,
else true positive when the placed tuple's count is positive, else true
negative. -/
def classifyFromState (s : DropletState) (count : ℕ) : Classification :=
  if s.isFalseNegative then Classification.falseNegative
  else if s.isFalsePositive then Classification.falsePositive
  else if 0 < count then Classification.truePositive
  else Classification.trueNegative

/-- `blank_lambda = -np.log(1 - false_positive_rate)`
(`droplets_simulation_data.py` line 74). -/
noncomputable def blankLambda (fp : ℝ) : ℝ := -Real.log (1 - fp)

/-- `lod_copies_per_ul = (blank_lambda + 3*np.sqrt(blank_lambda)) / single_droplet_volume`
(`droplets_simulation_data.py` line 75). -/
noncomputable def lodCopiesPerUl (fp v : ℝ) : ℝ :=
  (blankLambda fp + 3 * Real.sqrt (blankLambda fp)) / v

/-- `loq_copies_per_ul = 3.3 * lod_copies_per_ul`
(`droplets_simulation_data.py` line 76). -/
noncomputable def loqCopiesPerUl (fp v : ℝ) : ℝ := 3.3 * lodCopiesPerUl fp v

/-- The Poisson concentration-recovery transform
`-np.log(1 - ratio) / single_droplet_volume` applied to a positive ratio
(`droplets_simulation_data.py` lines 85-86). -/
noncomputable def concRecovery (r v : ℝ) : ℝ := -Real.log (1 - r) / v

/-- The guarded confidence-interval computation of
`calculate_ddpcr_statistics` (lines 79-88): when `total_drops > 0` the two
binomial-interval bounds `ciL`, `ciU` (counts, produced by the external
`scipy_stats.binom.interval` call) are each divided by `total_drops` and
pushed through the concentration-recovery transform; otherwise both bounds
are reported as 0. -/
noncomputable def dataConcCI (ciL ciU : ℝ) (total : ℕ) (v : ℝ) : ℝ × ℝ :=
  if 0 < total then
    (concRecovery (ciL / total) v, concRecovery (ciU / total) v)
  else (0, 0)

/-- The guarded false-positive share
`false_positive/total_drops if total_drops > 0 else 0`
(`droplets_simulation_data.py` line 125). -/
def dataFpRateStat (fp total : ℕ) : ℚ :=
  if 0 < total then (fp : ℚ) / total else 0

/-- The guarded false-negative share
`false_negative/total_drops if total_drops > 0 else 0`
(`droplets_simulation_data.py` line 126). -/
def dataFnRateStat (fn total : ℕ) : ℚ :=
  if 0 < total then (fn : ℚ) / total else 0

/-- Whether an `Except` value is a success. -/
def exceptOk {ε α : Type} : Except ε α → Bool
  | Except.ok _ => true
  | Except.error _ => false

/-- The state of `DigitalPCRSimulator` (`droplets_simulation2.py`):
`n_droplets`, the optional `lambda_value`, and the optional simulated
`distribution` (the Poisson draw, passed in here as explicit data). -/
structure DigitalPCRSimulator where
  n_droplets : ℕ
  lambda_value : Option ℚ
  distribution : Option (List ℕ)
deriving DecidableEq

/-- `DigitalPCRSimulator.__init__`: both `lambda_value` and `distribution`
start as `None`. -/
def DigitalPCRSimulator.init (n : ℕ) : DigitalPCRSimulator :=
  ⟨n, none, none⟩

/-- `set_lambda_from_copies`: `self.lambda_value = total_copies / self.n_droplets`.
Python integer true division raises `ZeroDivisionError` when
`n_droplets == 0`; that raise is modelled as the `Except.error` branch, and
each method returns the (possibly updated) simulator state alongside. -/
def DigitalPCRSimulator.set_lambda_from_copies (sim : DigitalPCRSimulator)
    (total_copies : ℚ) : Except String ℚ × DigitalPCRSimulator :=
  if sim.n_droplets = 0 then (Except.error ("ZeroDivisionError"), sim)
  else
    let l := total_copies / (sim.n_droplets : ℚ)
    (Except.ok l, { sim with lambda_value := some l })

/-- `simulate_distribution`: raises `ValueError` when no lambda has been
set, otherwise stores the Poisson draw (here the explicit `draws` input)
as `self.distribution` and returns it. -/
def DigitalPCRSimulator.simulate_distribution (sim : DigitalPCRSimulator)
    (draws : List ℕ) : Except String (List ℕ) × DigitalPCRSimulator :=
  match sim.lambda_value with
  | none => (Except.error ("ValueError: lambda must be set before simulating"), sim)
  | some _ => (Except.ok draws, { sim with distribution := some draws })

/-- `get_empty_ratio`: raises `ValueError` when no distribution has been
simulated; otherwise returns the actual empty fraction
`np.sum(distribution == 0) / n_droplets` and the theoretical fraction
`np.exp(-lambda_value)` (the lambda is necessarily set whenever a
distribution exists; the `getD 0` default is unreachable through the
methods above).  The method reads state without mutating it. -/
noncomputable def DigitalPCRSimulator.getEmptyRatioPair (sim : DigitalPCRSimulator) :
    Except String (ℚ × ℝ) × DigitalPCRSimulator :=
  match sim.distribution with
  | none => (Except.error ("ValueError: must run the simulation first"), sim)
  | some d =>
      (Except.ok (((d.filter (fun c => c = 0)).length : ℚ) / (sim.n_droplets : ℚ),
        Real.exp (-((sim.lambda_value.getD 0 : ℚ) : ℝ))), sim)

/-- The collision test of the packing loop (both
`droplets_simulation_new.py` lines 79-87 and `droplets_simulation.py`
lines 37-48): `np.hypot(x - ox, y - oy) < radius + oradius + 2`, embedded
via squared distances (equivalent whenever the radii are nonnegative,
which holds at every caller). -/
def collisionQ (x y r : ℚ) (p : Placed) : Bool :=
  decide ((x - p.x)^2 + (y - p.y)^2 < (r + p.radius + 2)^2)

/-- A candidate is accepted when it collides with no already-placed droplet. -/
def acceptPos (placed : List Placed) (x y r : ℚ) : Bool :=
  ! placed.any (fun p => collisionQ x y r p)

/-- One candidate center: `x = rng.uniform(radius, W - radius)` and
`y = rng.uniform(radius, H - radius)`, with the unit draws `u` made
explicit (`uniform(a, b) = a + u*(b - a)` for a unit draw `u`). -/
def candPos (W H r : ℚ) (u : ℚ × ℚ) : ℚ × ℚ :=
  (r + u.1 * (W - 2*r), r + u.2 * (H - 2*r))

/-- The per-droplet attempt loop: the first of the candidate centers that
collides with no placed droplet is appended (with this droplet's radius
and molecule count); if every attempt collides the droplet is dropped. -/
def placeStep (W H r : ℚ) (c : ℕ) (us : List (ℚ × ℚ)) (placed : List Placed) :
    List Placed :=
  match (us.map (candPos W H r)).find? (fun q => acceptPos placed q.1 q.2 r) with
  | some q => placed ++ [⟨q.1, q.2, r, c⟩]
  | none => placed

/-- The packing loop, processing the remaining radii in index order with
`idx` the index of the head radius. -/
def placeLoop (W H : ℚ) (cnts : ℕ → ℕ) (posU : ℕ → ℕ → ℚ × ℚ) :
    List ℚ → ℕ → List Placed → List Placed
  | [], _, placed => placed
  | r :: rs, idx, placed =>
    placeLoop W H cnts posU rs (idx + 1)
      (placeStep W H r (cnts idx) ((List.range 100).map (posU idx)) placed)

/-- The full packing loop of `generate_ddpcr_image` (identical in
`droplets_simulation_new.py` lines 71-91 and `droplets_simulation.py`
lines 29-51): droplets are processed in index order, each getting
`max_attempts = 100` candidate draws. -/
def placeDroplets (W H : ℚ) (radii : List ℚ) (cnts : ℕ → ℕ)
    (posU : ℕ → ℕ → ℚ × ℚ) : List Placed :=
  placeLoop W H cnts posU radii 0 []

/-- A placed droplet has nonnegative radius and its center inside the
canvas inset by its own radius. -/
def InsetOk (W H : ℚ) (p : Placed) : Prop :=
  0 ≤ p.radius ∧ p.radius ≤ p.x ∧ p.x ≤ W - p.radius ∧
    p.radius ≤ p.y ∧ p.y ≤ H - p.radius

/-- Two placed droplets are separated: squared center distance at least
the squared sum of radii plus the 2-pixel margin. -/
def SeparatedSq (p q : Placed) : Prop :=
  (p.radius + q.radius + 2)^2 ≤ (p.x - q.x)^2 + (p.y - q.y)^2

/-- Invariant of the packing loop. -/
def GoodPlaced (W H : ℚ) (placed : List Placed) : Prop :=
  (∀ p ∈ placed, InsetOk W H p) ∧ placed.Pairwise SeparatedSq

/-- An accepted candidate is separated from every already-placed droplet. -/
theorem acceptPos_sep {placed : List Placed} {x y r : ℚ}
    (h : acceptPos placed x y r = true) (p : Placed) (hp : p ∈ placed) (c : ℕ) :
    SeparatedSq p ⟨x, y, r, c⟩ := by
  unfold acceptPos at h
  rw [Bool.not_eq_true'] at h
  rw [List.any_eq_false] at h
  have hcol := h p hp
  unfold collisionQ at hcol
  rw [decide_eq_true_iff] at hcol
  have hge : (r + p.radius + 2)^2 ≤ (x - p.x)^2 + (y - p.y)^2 := not_lt.mp hcol
  show (p.radius + r + 2)^2 ≤ (p.x - x)^2 + (p.y - y)^2
  have e1 : (p.x - x)^2 = (x - p.x)^2 := by ring
  have e2 : (p.y - y)^2 = (y - p.y)^2 := by ring
  have e3 : (p.radius + r + 2)^2 = (r + p.radius + 2)^2 := by ring
  rw [e1, e2, e3]
  exact hge

/-- One placement step preserves the packing invariant. -/
theorem placeStep_good {W H r : ℚ} {c : ℕ} {us : List (ℚ × ℚ)}
    {placed : List Placed} (hInv : GoodPlaced W H placed)
    (hr0 : 0 ≤ r) (hrW : 2*r ≤ W) (hrH : 2*r ≤ H)
    (hus : ∀ u ∈ us, 0 ≤ u.1 ∧ u.1 < 1 ∧ 0 ≤ u.2 ∧ u.2 < 1) :
    GoodPlaced W H (placeStep W H r c us placed) := by
  unfold placeStep
  cases hfind : (us.map (candPos W H r)).find? (fun q => acceptPos placed q.1 q.2 r) with
  | none => exact hInv
  | some q =>
    have hq_mem : q ∈ us.map (candPos W H r) := List.mem_of_find?_eq_some hfind
    have hacc : acceptPos placed q.1 q.2 r = true := by
      have := List.find?_some hfind
      simpa using this
    obtain ⟨u, hu_mem, hu_eq⟩ := List.mem_map.mp hq_mem
    obtain ⟨hu1, hu1lt, hu2, hu2lt⟩ := hus u hu_mem
    have hx : q.1 = r + u.1 * (W - 2*r) := by rw [← hu_eq]; rfl
    have hy : q.2 = r + u.2 * (H - 2*r) := by rw [← hu_eq]; rfl
    have hW0 : 0 ≤ W - 2*r := by linarith
    have hH0 : 0 ≤ H - 2*r := by linarith
    have hx1 : r ≤ q.1 := by
      rw [hx]
      have := mul_nonneg hu1 hW0
      linarith
    have hx2 : q.1 ≤ W - r := by
      rw [hx]
      have := mul_le_mul_of_nonneg_right (le_of_lt hu1lt) hW0
      linarith
    have hy1 : r ≤ q.2 := by
      rw [hy]
      have := mul_nonneg hu2 hH0
      linarith
    have hy2 : q.2 ≤ H - r := by
      rw [hy]
      have := mul_le_mul_of_nonneg_right (le_of_lt hu2lt) hH0
      linarith
    constructor
    · intro p hp
      rcases List.mem_append.mp hp with hmem | hnew
      · exact hInv.1 p hmem
      · have hpq : p = ⟨q.1, q.2, r, c⟩ := List.mem_singleton.mp hnew
        rw [hpq]
        exact ⟨hr0, hx1, hx2, hy1, hy2⟩
    · rw [List.pairwise_append]
      refine ⟨hInv.2, List.pairwise_singleton _ _, ?_⟩
      intro p hp b hb
      have hb' : b = ⟨q.1, q.2, r, c⟩ := List.mem_singleton.mp hb
      rw [hb']
      exact acceptPos_sep hacc p hp c

/-- The packing loop preserves the invariant. -/
theorem placeLoop_good (W H : ℚ) (cnts : ℕ → ℕ) (posU : ℕ → ℕ → ℚ × ℚ)
    (hu : ∀ i a, 0 ≤ (posU i a).1 ∧ (posU i a).1 < 1 ∧
      0 ≤ (posU i a).2 ∧ (posU i a).2 < 1)
    (radii : List ℚ) :
    ∀ (idx : ℕ) (acc : List Placed),
      (∀ r ∈ radii, 0 ≤ r ∧ 2*r ≤ W ∧ 2*r ≤ H) →
      GoodPlaced W H acc →
      GoodPlaced W H (placeLoop W H cnts posU radii idx acc) := by
  induction radii with
  | nil =>
    intro idx acc _ hacc
    simpa [placeLoop] using hacc
  | cons r rs ih =>
    intro idx acc hr hacc
    rw [placeLoop]
    apply ih (idx + 1) _ (fun s hs => hr s (List.mem_cons_of_mem _ hs))
    obtain ⟨h0, hWc, hHc⟩ := hr r (List.mem_cons_self _ _)
    refine placeStep_good hacc h0 hWc hHc ?_
    intro u hu_mem
    obtain ⟨a, _, ha⟩ := List.mem_map.mp hu_mem
    rw [← ha]
    exact hu idx a

/-- A placement step grows the placed list by at most one droplet. -/
theorem placeStep_length_le (W H r : ℚ) (c : ℕ) (us : List (ℚ × ℚ))
    (placed : List Placed) :
    (placeStep W H r c us placed).length ≤ placed.length + 1 := by
  unfold placeStep
  cases hfind : (us.map (candPos W H r)).find? (fun q => acceptPos placed q.1 q.2 r) with
  | none => simp
  | some q => simp

/-- A placement step never shrinks the placed list. -/
theorem placeStep_length_ge (W H r : ℚ) (c : ℕ) (us : List (ℚ × ℚ))
    (placed : List Placed) :
    placed.length ≤ (placeStep W H r c us placed).length := by
  unfold placeStep
  cases hfind : (us.map (candPos W H r)).find? (fun q => acceptPos placed q.1 q.2 r) with
  | none => simp
  | some q => simp

/-- The packing loop adds at most one droplet per processed radius. -/
theorem placeLoop_length_le (W H : ℚ) (cnts : ℕ → ℕ)
    (posU : ℕ → ℕ → ℚ × ℚ) (radii : List ℚ) :
    ∀ (idx : ℕ) (acc : List Placed),
      (placeLoop W H cnts posU radii idx acc).length ≤
        acc.length + radii.length := by
  induction radii with
  | nil => intro idx acc; simp [placeLoop]
  | cons r rs ih =>
    intro idx acc
    rw [placeLoop]
    have h1 := ih (idx + 1) (placeStep W H r (cnts idx)
      ((List.range 100).map (posU idx)) acc)
    have h2 := placeStep_length_le W H r (cnts idx)
      ((List.range 100).map (posU idx)) acc
    simp only [List.length_cons]
    omega

/-- The packing loop never shrinks the placed list. -/
theorem placeLoop_length_ge (W H : ℚ) (cnts : ℕ → ℕ)
    (posU : ℕ → ℕ → ℚ × ℚ) (radii : List ℚ) :
    ∀ (idx : ℕ) (acc : List Placed),
      acc.length ≤ (placeLoop W H cnts posU radii idx acc).length := by
  induction radii with
  | nil => intro idx acc; simp [placeLoop]
  | cons r rs ih =>
    intro idx acc
    rw [placeLoop]
    have h1 := ih (idx + 1) (placeStep W H r (cnts idx)
      ((List.range 100).map (posU idx)) acc)
    have h2 := placeStep_length_ge W H r (cnts idx)
      ((List.range 100).map (posU idx)) acc
    omega

/-- The first droplet is always placed: against an empty placed list the
very first candidate is accepted. -/
theorem placeStep_nil_length (W H r : ℚ) (c : ℕ) (us : List (ℚ × ℚ))
    (h : us ≠ []) : (placeStep W H r c us []).length = 1 := by
  cases us with
  | nil => exact absurd rfl h
  | cons u us =>
    unfold placeStep
    rw [List.map_cons, List.find?_cons_of_pos]
    · simp
    · simp [acceptPos]

/-- Every element of a range-mapped list equals the constant value of the
mapped function. -/
theorem map_range_const {α : Type} (g : ℕ → α) (u0 : α) (n : ℕ)
    (h : ∀ a, g a = u0) : ∀ u ∈ (List.range n).map g, u = u0 := by
  intro u hu
  obtain ⟨a, _, hae⟩ := List.mem_map.mp hu
  rw [← hae, h a]

/-- A range-mapped list with a positive range is nonempty. -/
theorem map_range_ne_nil {α : Type} (g : ℕ → α) (n : ℕ) (h : n ≠ 0) :
    (List.range n).map g ≠ [] := by
  intro hnil
  have hlen := congrArg List.length hnil
  simp at hlen
  exact h hlen

/-- Evaluation rule: when all attempt draws are the same value `u0` and
its candidate collides, the droplet is dropped. -/
theorem placeStep_const_fail (W H r : ℚ) (c : ℕ) (u0 : ℚ × ℚ)
    (placed : List Placed) (us : List (ℚ × ℚ))
    (hconst : ∀ u ∈ us, u = u0)
    (hfail : acceptPos placed (candPos W H r u0).1 (candPos W H r u0).2 r = false) :
    placeStep W H r c us placed = placed := by
  unfold placeStep
  have hnone : (us.map (candPos W H r)).find?
      (fun q => acceptPos placed q.1 q.2 r) = none := by
    rw [List.find?_eq_none]
    intro q hq
    obtain ⟨u, hu, hqe⟩ := List.mem_map.mp hq
    rw [← hqe, hconst u hu]
    simp [hfail]
  rw [hnone]

/-- Evaluation rule: when all attempt draws are the same value `u0` and
its candidate is collision-free, the droplet is placed there. -/
theorem placeStep_const_ok (W H r : ℚ) (c : ℕ) (u0 : ℚ × ℚ)
    (placed : List Placed) (us : List (ℚ × ℚ)) (hne : us ≠ [])
    (hconst : ∀ u ∈ us, u = u0)
    (hok : acceptPos placed (candPos W H r u0).1 (candPos W H r u0).2 r = true) :
    placeStep W H r c us placed =
      placed ++ [⟨(candPos W H r u0).1, (candPos W H r u0).2, r, c⟩] := by
  cases us with
  | nil => exact absurd rfl hne
  | cons u us' =>
    have hu : u = u0 := hconst u (List.mem_cons_self _ _)
    unfold placeStep
    have hok' : (fun q : ℚ × ℚ => acceptPos placed q.1 q.2 r)
        (candPos W H r u0) = true := hok
    have hfind : List.find? (fun q : ℚ × ℚ => acceptPos placed q.1 q.2 r)
        (candPos W H r u0 :: List.map (candPos W H r) us') =
        some (candPos W H r u0) := List.find?_cons_of_pos _ hok'
    rw [List.map_cons, hu, hfind]

/-- The packer never places more droplets than requested. -/
theorem placeDroplets_length_le (W H : ℚ) (radii : List ℚ) (cnts : ℕ → ℕ)
    (posU : ℕ → ℕ → ℚ × ℚ) :
    (placeDroplets W H radii cnts posU).length ≤ radii.length := by
  unfold placeDroplets
  have := placeLoop_length_le W H cnts posU radii 0 []
  simpa using this

/-- With at least one requested droplet, at least one droplet is placed. -/
theorem placeDroplets_length_pos (W H : ℚ) (radii : List ℚ) (cnts : ℕ → ℕ)
    (posU : ℕ → ℕ → ℚ × ℚ) (h : radii ≠ []) :
    1 ≤ (placeDroplets W H radii cnts posU).length := by
  cases radii with
  | nil => exact absurd rfl h
  | cons r rs =>
    unfold placeDroplets
    rw [placeLoop]
    have h1 : (placeStep W H r (cnts 0)
        ((List.range 100).map (posU 0)) []).length = 1 := by
      apply placeStep_nil_length
      simp
    calc 1 = (placeStep W H r (cnts 0)
          ((List.range 100).map (posU 0)) []).length := h1.symm
      _ ≤ _ := placeLoop_length_ge W H cnts posU rs 1 _

/-- Separation in the rational squared form gives the Euclidean-distance
form over the reals. -/
theorem sep_real {p q : Placed} (hp : 0 ≤ p.radius) (hq : 0 ≤ q.radius)
    (h : SeparatedSq p q) :
    (p.radius : ℝ) + (q.radius : ℝ) + 2 ≤
      Real.sqrt (((p.x : ℝ) - (q.x : ℝ))^2 + ((p.y : ℝ) - (q.y : ℝ))^2) := by
  have hp' : (0:ℝ) ≤ (p.radius : ℝ) := by exact_mod_cast hp
  have hq' : (0:ℝ) ≤ (q.radius : ℝ) := by exact_mod_cast hq
  have hs : (0:ℝ) ≤ (p.radius : ℝ) + (q.radius : ℝ) + 2 := by linarith
  have h' : (p.radius + q.radius + 2)^2 ≤ (p.x - q.x)^2 + (p.y - q.y)^2 := h
  have hcast : ((p.radius : ℝ) + (q.radius : ℝ) + 2)^2 ≤
      ((p.x : ℝ) - (q.x : ℝ))^2 + ((p.y : ℝ) - (q.y : ℝ))^2 := by
    exact_mod_cast h'
  calc (p.radius : ℝ) + (q.radius : ℝ) + 2
      = Real.sqrt (((p.radius : ℝ) + (q.radius : ℝ) + 2)^2) := (Real.sqrt_sq hs).symm
    _ ≤ Real.sqrt (((p.x : ℝ) - (q.x : ℝ))^2 + ((p.y : ℝ) - (q.y : ℝ))^2) :=
        Real.sqrt_le_sqrt hcast

/-- C3: provided every requested radius is nonnegative and fits the canvas
and all unit position draws lie in `[0,1)`, the packer places at most the
requested number of droplets (a droplet whose attempts are all rejected is
simply omitted), every placed center lies inside the canvas inset by that
droplet's own radius, and every pair of placed droplets has Euclidean
center distance at least the sum of their radii plus the 2-pixel margin. -/
theorem packer_separation (W H : ℚ) (radii : List ℚ) (cnts : ℕ → ℕ)
    (posU : ℕ → ℕ → ℚ × ℚ)
    (hr : ∀ r ∈ radii, 0 ≤ r ∧ 2*r ≤ W ∧ 2*r ≤ H)
    (hu : ∀ i a, 0 ≤ (posU i a).1 ∧ (posU i a).1 < 1 ∧
      0 ≤ (posU i a).2 ∧ (posU i a).2 < 1) :
    (placeDroplets W H radii cnts posU).length ≤ radii.length ∧
    (∀ p ∈ placeDroplets W H radii cnts posU,
      p.radius ≤ p.x ∧ p.x ≤ W - p.radius ∧ p.radius ≤ p.y ∧ p.y ≤ H - p.radius) ∧
    (placeDroplets W H radii cnts posU).Pairwise
      (fun p q => (p.radius : ℝ) + (q.radius : ℝ) + 2 ≤
        Real.sqrt (((p.x : ℝ) - (q.x : ℝ))^2 + ((p.y : ℝ) - (q.y : ℝ))^2)) := by
  have hgood : GoodPlaced W H (placeDroplets W H radii cnts posU) := by
    unfold placeDroplets
    exact placeLoop_good W H cnts posU hu radii 0 [] hr
      ⟨fun p hp => absurd hp (List.not_mem_nil p), List.Pairwise.nil⟩
  refine ⟨placeDroplets_length_le W H radii cnts posU, ?_, ?_⟩
  · intro p hp
    obtain ⟨_, h1, h2, h3, h4⟩ := hgood.1 p hp
    exact ⟨h1, h2, h3, h4⟩
  · refine List.Pairwise.imp_of_mem ?_ hgood.2
    intro p q hp hq hsep
    exact sep_real (hgood.1 p hp).1 (hgood.1 q hq).1 hsep

/-- Witness for C3: two radius-10 droplets on a 100 by 100 canvas with all
position draws at the origin corner; the second droplet always collides
with the first and is dropped. -/
theorem packer_separation_witness :
    (placeDroplets 100 100 [10, 10] (fun _ => 0) (fun _ _ => (0, 0))).length ≤ 2 ∧
    (∀ p ∈ placeDroplets 100 100 [10, 10] (fun _ => 0) (fun _ _ => (0, 0)),
      p.radius ≤ p.x ∧ p.x ≤ 100 - p.radius ∧ p.radius ≤ p.y ∧ p.y ≤ 100 - p.radius) ∧
    (placeDroplets 100 100 [10, 10] (fun _ => 0) (fun _ _ => (0, 0))).Pairwise
      (fun p q => (p.radius : ℝ) + (q.radius : ℝ) + 2 ≤
        Real.sqrt (((p.x : ℝ) - (q.x : ℝ))^2 + ((p.y : ℝ) - (q.y : ℝ))^2)) := by
  have h := packer_separation 100 100 [10, 10] (fun _ => 0) (fun _ _ => (0, 0))
    (by intro r hr; fin_cases hr <;> norm_num)
    (by intro i a; norm_num)
  simpa using h

/-- The clipped pixel diameters of `generate_ddpcr_image`
(`droplets_simulation_new.py` lines 33-37), with the normal draws `rawD`
made explicit. -/
def newDiametersPx (avgUm : ℚ) (rawD : ℕ → ℚ) (n : ℕ) : List ℚ :=
  (List.range n).map (fun i => newDiameterPx avgUm (rawD i))

/-- `dynamic_false_negative_rates = false_negative_rate * relative_diameters`
with `relative_diameters = diameters_um / average_diameter_um`
(`droplets_simulation_new.py` lines 44-48): the denominator is the
configured average diameter. -/
def newDynamicFnRates (avgUm fnRate : ℚ) (rawD : ℕ → ℚ) (n : ℕ) : List ℚ :=
  (List.range n).map
    (fun i => fnRate * (diameterUmOfPx (newDiameterPx avgUm (rawD i)) / avgUm))

/-- `dynamic_false_positive_rates = false_positive_rate * relative_diameters`
(`droplets_simulation_new.py` line 49). -/
def newDynamicFpRates (avgUm fpRate : ℚ) (rawD : ℕ → ℚ) (n : ℕ) : List ℚ :=
  (List.range n).map
    (fun i => fpRate * (diameterUmOfPx (newDiameterPx avgUm (rawD i)) / avgUm))

/-- The `droplet_states` list built by the corruption loop of
`generate_ddpcr_image` (lines 52-69), one state per generated droplet,
computed before and independently of placement. -/
def newDropletStates (avgUm fnRate fpRate : ℚ) (rawD : ℕ → ℚ) (counts : ℕ → ℕ)
    (corrU : ℕ → ℚ) (n : ℕ) : List DropletState :=
  (List.range n).map (fun i =>
    corruptDroplet (counts i) (corrU i)
      (fnRate * (diameterUmOfPx (newDiameterPx avgUm (rawD i)) / avgUm))
      (fpRate * (diameterUmOfPx (newDiameterPx avgUm (rawD i)) / avgUm)))

/-- The placement step of `generate_ddpcr_image`
(`droplets_simulation_new.py` lines 71-91): radii are half the clipped
pixel diameters. -/
def newPlaced (avgUm W H : ℚ) (rawD : ℕ → ℚ) (counts : ℕ → ℕ)
    (posU : ℕ → ℕ → ℚ × ℚ) (n : ℕ) : List Placed :=
  placeDroplets W H ((newDiametersPx avgUm rawD n).map (fun d => d / 2)) counts posU

/-- Default row used for out-of-range list reads. -/
def rowDefault : Row := ⟨0, 0, 0, 0, Classification.trueNegative⟩

/-- Default droplet state used for out-of-range list reads. -/
def stateDefault : DropletState := ⟨0, false, false⟩

/-- The `droplet_data` rows built by the drawing loop of
`generate_ddpcr_image` (lines 100-131).  As in the source, the state for
the row at position `idx` of the *placed* list is read from
`droplet_states[idx]`, whose index refers to the original generation
order, while the molecule count comes from the placed tuple itself. -/
def newRows (avgUm W H fnRate fpRate : ℚ) (rawD : ℕ → ℚ) (counts : ℕ → ℕ)
    (corrU : ℕ → ℚ) (posU : ℕ → ℕ → ℚ × ℚ) (n : ℕ) : List Row :=
  (newPlaced avgUm W H rawD counts posU n).enum.map (fun ip =>
    ⟨diameterUmOfPx (ip.2.radius * 2), ip.2.x, ip.2.y, ip.2.count,
      classifyFromState
        ((newDropletStates avgUm fnRate fpRate rawD counts corrU n).getD
          ip.1 stateDefault)
        ip.2.count⟩)

/-- Number of rows recorded with a given classification. -/
def countClass (rows : List Row) (c : Classification) : ℕ :=
  (rows.filter (fun r => decide (r.classification = c))).length

/-- The summary block of `generate_ddpcr_image` (lines 147-166): total,
the four confusion counts, the two rates obtained by dividing by
`total_drops`, and the mean diameter. -/
structure NewSummary where
  total : ℕ
  tp : ℕ
  fp : ℕ
  tn : ℕ
  fn : ℕ
  fpShare : ℚ
  fnShare : ℚ
  meanDiameterUm : ℚ
deriving DecidableEq

/-- The summary computation of `generate_ddpcr_image` (lines 147-166).
The divisions `false_positive/total_drops` and `false_negative/total_drops`
are not guarded in the source, so with an empty `droplet_data` Python
raises `ZeroDivisionError`; that raise is modelled as `none`. -/
def newSummary (rows : List Row) : Option NewSummary :=
  if rows.length = 0 then none
  else some ⟨rows.length,
    countClass rows Classification.truePositive,
    countClass rows Classification.falsePositive,
    countClass rows Classification.trueNegative,
    countClass rows Classification.falseNegative,
    (countClass rows Classification.falsePositive : ℚ) / rows.length,
    (countClass rows Classification.falseNegative : ℚ) / rows.length,
    (rows.map (fun r => r.diameterUm)).sum / rows.length⟩

/-- Modelled from the spec (claim C2): the dynamic false-negative rate of
the row at index `i`, computed with the *final placed population's* mean
diameter as the denominator of `relative_size`, per the spec's words
"using the final population's mean diameter (computed over placed droplets
only)". -/
def specDynamicFnRateAt (fnRate : ℚ) (rows : List Row) (i : ℕ) : ℚ :=
  fnRate * ((rows.getD i rowDefault).diameterUm /
    ((rows.map (fun r => r.diameterUm)).sum / rows.length))

/-- Reading a mapped range list at an in-range index. -/
theorem getD_range_map {α : Type} (f : ℕ → α) (d : α) (n i : ℕ) (hi : i < n) :
    ((List.range n).map f).getD i d = f i := by
  rw [List.getD_eq_getElem?_getD, List.getElem?_map, List.getElem?_range hi]
  rfl

/-- Enumerating a two-element list. -/
theorem enum_pair {α : Type} (a b : α) : ([a, b] : List α).enum = [(0, a), (1, b)] :=
  rfl

/-- Diameter draws of the C1 failing run (pixels): 35, 35, 30. -/
def c1RawD : ℕ → ℚ := fun i => if i = 0 then 35 else if i = 1 then 35 else 30

/-- Molecule counts of the C1 failing run: only droplet 1 has molecules. -/
def c1Counts : ℕ → ℕ := fun i => if i = 1 then 5 else 0

/-- Corruption draws of the C1 failing run: droplet 1 draws 0, below its
dynamic false-negative rate, so it is corrupted to a false negative. -/
def c1CorrU : ℕ → ℚ := fun i => if i = 0 then 99/100 else if i = 1 then 0 else 1/2

/-- Position draws of the C1 failing run: droplets 0 and 1 always draw the
canvas corner, so droplet 1 collides with droplet 0 on all 100 attempts
and is dropped; droplet 2 draws the canvas center and is placed. -/
def c1PosU : ℕ → ℕ → ℚ × ℚ := fun i _ => if i = 2 then (1/2, 1/2) else (0, 0)

/-- C1 (code evaluation at the failing input): a 3-droplet run of
`generate_ddpcr_image` on a 100 by 100 canvas where droplet 1 (the only
droplet with molecules, corrupted to a false negative) cannot be placed.
The second placed droplet is droplet 2 with `true_count = 0`, yet its
recorded classification is `false_negative`, because the drawing loop
reads `droplet_states[1]` — the dropped droplet's corruption state.  Its
own state would classify it as a true negative, so the recorded
classification is not a function of this droplet's own count and call. -/
theorem misaligned_classification_run :
    ((newRows 100 100 100 (1/10) (1/20) c1RawD c1Counts c1CorrU c1PosU 3).getD
      1 rowDefault).count = 0 ∧
    ((newRows 100 100 100 (1/10) (1/20) c1RawD c1Counts c1CorrU c1PosU 3).getD
      1 rowDefault).classification = Classification.falseNegative ∧
    classifyFromState
      ((newDropletStates 100 (1/10) (1/20) c1RawD c1Counts c1CorrU 3).getD
        2 stateDefault) 0 = Classification.trueNegative := by
  have hradii : (newDiametersPx 100 c1RawD 3).map (fun d => d / 2) =
      [35/2, 35/2, 15] := by
    norm_num [newDiametersPx, newDiameterPx, clip, avgDiameterPixels,
      pixelsPerUm, c1RawD, List.range_succ, max_def, min_def]
  have hcand00 : candPos 100 100 (35/2) ((0 : ℚ), (0 : ℚ)) = (35/2, 35/2) := by
    unfold candPos
    norm_num
  have hcand2 : candPos 100 100 15 ((1 : ℚ)/2, (1 : ℚ)/2) = (50, 50) := by
    unfold candPos
    norm_num
  have hstep0 : placeStep 100 100 (35/2) (c1Counts 0)
      ((List.range 100).map (c1PosU 0)) [] = [⟨35/2, 35/2, 35/2, 0⟩] := by
    have h := placeStep_const_ok 100 100 (35/2) (c1Counts 0) (0, 0) []
      ((List.range 100).map (c1PosU 0))
      (map_range_ne_nil _ 100 (by norm_num))
      (map_range_const _ (0, 0) 100 (fun a => rfl))
      (by rw [hcand00]; rfl)
    rw [h, hcand00]
    rfl
  have hstep1 : placeStep 100 100 (35/2) (c1Counts 1)
      ((List.range 100).map (c1PosU 1)) [⟨35/2, 35/2, 35/2, 0⟩] =
      [⟨35/2, 35/2, 35/2, 0⟩] := by
    apply placeStep_const_fail 100 100 (35/2) (c1Counts 1) (0, 0) _ _
      (map_range_const _ (0, 0) 100 (fun a => rfl))
    rw [hcand00]
    show acceptPos [⟨35/2, 35/2, 35/2, 0⟩] (35/2) (35/2) (35/2) = false
    simp only [acceptPos, collisionQ, List.any_cons, List.any_nil,
      Bool.or_false, Bool.not_eq_false', decide_eq_true_eq]
    norm_num
  have hstep2 : placeStep 100 100 15 (c1Counts 2)
      ((List.range 100).map (c1PosU 2)) [⟨35/2, 35/2, 35/2, 0⟩] =
      [⟨35/2, 35/2, 35/2, 0⟩, ⟨50, 50, 15, 0⟩] := by
    have h := placeStep_const_ok 100 100 15 (c1Counts 2) (1/2, 1/2)
      [⟨35/2, 35/2, 35/2, 0⟩] ((List.range 100).map (c1PosU 2))
      (map_range_ne_nil _ 100 (by norm_num))
      (map_range_const _ (1/2, 1/2) 100 (fun a => rfl))
      (by
        rw [hcand2]
        show acceptPos [⟨35/2, 35/2, 35/2, 0⟩] 50 50 15 = true
        simp only [acceptPos, collisionQ, List.any_cons, List.any_nil,
          Bool.or_false, Bool.not_eq_true', decide_eq_false_iff_not]
        norm_num)
    rw [h, hcand2]
    rfl
  have hplaced : newPlaced 100 100 100 c1RawD c1Counts c1PosU 3 =
      [⟨35/2, 35/2, 35/2, 0⟩, ⟨50, 50, 15, 0⟩] := by
    unfold newPlaced placeDroplets
    rw [hradii]
    simp only [placeLoop]
    rw [hstep0, hstep1, hstep2]
  have hstate1 : (newDropletStates 100 (1/10) (1/20) c1RawD c1Counts c1CorrU 3).getD
      1 stateDefault = ⟨5, true, false⟩ := by
    unfold newDropletStates
    rw [getD_range_map _ _ 3 1 (by norm_num)]
    unfold corruptDroplet
    norm_num [c1Counts, c1CorrU, c1RawD, newDiameterPx, clip, avgDiameterPixels,
      pixelsPerUm, diameterUmOfPx, max_def, min_def, decide_eq_true_eq]
  have hstate2 : (newDropletStates 100 (1/10) (1/20) c1RawD c1Counts c1CorrU 3).getD
      2 stateDefault = ⟨0, false, false⟩ := by
    unfold newDropletStates
    rw [getD_range_map _ _ 3 2 (by norm_num)]
    unfold corruptDroplet
    norm_num [c1Counts, c1CorrU, c1RawD, newDiameterPx, clip, avgDiameterPixels,
      pixelsPerUm, diameterUmOfPx, max_def, min_def, decide_eq_false_iff_not]
  refine ⟨?_, ?_, ?_⟩
  · unfold newRows
    rw [hplaced, enum_pair]
    simp only [List.map_cons, List.map_nil, List.getD_cons_succ, List.getD_cons_zero]
  · unfold newRows
    rw [hplaced, enum_pair]
    simp only [List.map_cons, List.map_nil, List.getD_cons_succ, List.getD_cons_zero]
    show classifyFromState
      ((newDropletStates 100 (1/10) (1/20) c1RawD c1Counts c1CorrU 3).getD
        1 stateDefault) 0 = Classification.falseNegative
    rw [hstate1]
    rfl
  · rw [hstate2]
    rfl

/-- Diameter draws of the C2 run (pixels): 33.3 and 37, i.e. 90 and 100
micrometers. -/
def c2RawD : ℕ → ℚ := fun i => if i = 0 then 333/10 else 37

/-- Molecule counts of the C2 run: all zero. -/
def c2Counts : ℕ → ℕ := fun _ => 0

/-- Corruption draws of the C2 run. -/
def c2CorrU : ℕ → ℚ := fun _ => 1/2

/-- Position draws of the C2 run: droplet 0 at the corner, droplet 1 at
the canvas center; both are placed. -/
def c2PosU : ℕ → ℕ → ℚ × ℚ := fun i _ => if i = 0 then (0, 0) else (1/2, 1/2)

/-- C2 (counterexample): a 2-droplet run in which both droplets are placed
with diameters 90 and 100 micrometers (placed-population mean 95) under a
configured average of 100: the code's dynamic false-negative rate for
droplet 0 is `0.1 * 90/100 = 9/100`, not the claim's
`0.1 * 90/95 = 9/95` computed from the placed population's mean. -/
theorem dynamic_rate_configured_mean_cex :
    (newDynamicFnRates 100 (1/10) c2RawD 2).getD 0 0 = 9/100 ∧
    specDynamicFnRateAt (1/10)
      (newRows 100 200 200 (1/10) (1/20) c2RawD c2Counts c2CorrU c2PosU 2) 0
      = 9/95 ∧
    (newDynamicFnRates 100 (1/10) c2RawD 2).getD 0 0 ≠
      specDynamicFnRateAt (1/10)
        (newRows 100 200 200 (1/10) (1/20) c2RawD c2Counts c2CorrU c2PosU 2) 0 := by
  have h1 : (newDynamicFnRates 100 (1/10) c2RawD 2).getD 0 0 = 9/100 := by
    unfold newDynamicFnRates
    rw [getD_range_map _ _ 2 0 (by norm_num)]
    norm_num [c2RawD, newDiameterPx, clip, avgDiameterPixels, pixelsPerUm,
      diameterUmOfPx, max_def, min_def]
  have hradii : (newDiametersPx 100 c2RawD 2).map (fun d => d / 2) =
      [333/20, 37/2] := by
    norm_num [newDiametersPx, newDiameterPx, clip, avgDiameterPixels,
      pixelsPerUm, c2RawD, List.range_succ, max_def, min_def]
  have hcand0 : candPos 200 200 (333/20) ((0 : ℚ), (0 : ℚ)) = (333/20, 333/20) := by
    unfold candPos
    norm_num
  have hcand1 : candPos 200 200 (37/2) ((1 : ℚ)/2, (1 : ℚ)/2) = (100, 100) := by
    unfold candPos
    norm_num
  have hstep0 : placeStep 200 200 (333/20) (c2Counts 0)
      ((List.range 100).map (c2PosU 0)) [] = [⟨333/20, 333/20, 333/20, 0⟩] := by
    have h := placeStep_const_ok 200 200 (333/20) (c2Counts 0) (0, 0) []
      ((List.range 100).map (c2PosU 0))
      (map_range_ne_nil _ 100 (by norm_num))
      (map_range_const _ (0, 0) 100 (fun a => rfl))
      (by rw [hcand0]; rfl)
    rw [h, hcand0]
    rfl
  have hstep1 : placeStep 200 200 (37/2) (c2Counts 1)
      ((List.range 100).map (c2PosU 1)) [⟨333/20, 333/20, 333/20, 0⟩] =
      [⟨333/20, 333/20, 333/20, 0⟩, ⟨100, 100, 37/2, 0⟩] := by
    have h := placeStep_const_ok 200 200 (37/2) (c2Counts 1) (1/2, 1/2)
      [⟨333/20, 333/20, 333/20, 0⟩] ((List.range 100).map (c2PosU 1))
      (map_range_ne_nil _ 100 (by norm_num))
      (map_range_const _ (1/2, 1/2) 100 (fun a => rfl))
      (by
        rw [hcand1]
        show acceptPos [⟨333/20, 333/20, 333/20, 0⟩] 100 100 (37/2) = true
        simp only [acceptPos, collisionQ, List.any_cons, List.any_nil,
          Bool.or_false, Bool.not_eq_true', decide_eq_false_iff_not]
        norm_num)
    rw [h, hcand1]
    rfl
  have hplaced : newPlaced 100 200 200 c2RawD c2Counts c2PosU 2 =
      [⟨333/20, 333/20, 333/20, 0⟩, ⟨100, 100, 37/2, 0⟩] := by
    unfold newPlaced placeDroplets
    rw [hradii]
    simp only [placeLoop]
    rw [hstep0, hstep1]
  have hdget : ((newRows 100 200 200 (1/10) (1/20) c2RawD c2Counts c2CorrU
      c2PosU 2).getD 0 rowDefault).diameterUm = 90 := by
    unfold newRows
    rw [hplaced, enum_pair]
    simp only [List.map_cons, List.map_nil, List.getD_cons_zero]
    show diameterUmOfPx (333/20 * 2) = 90
    norm_num [diameterUmOfPx, pixelsPerUm]
  have hdsum : ((newRows 100 200 200 (1/10) (1/20) c2RawD c2Counts c2CorrU
      c2PosU 2).map (fun r => r.diameterUm)).sum = 190 := by
    unfold newRows
    rw [hplaced, enum_pair]
    simp only [List.map_cons, List.map_nil, List.sum_cons, List.sum_nil]
    show diameterUmOfPx (333/20 * 2) + (diameterUmOfPx (37/2 * 2) + 0) = 190
    norm_num [diameterUmOfPx, pixelsPerUm]
  have hdlen : (newRows 100 200 200 (1/10) (1/20) c2RawD c2Counts c2CorrU
      c2PosU 2).length = 2 := by
    unfold newRows
    rw [hplaced, enum_pair]
    rfl
  have h2 : specDynamicFnRateAt (1/10)
      (newRows 100 200 200 (1/10) (1/20) c2RawD c2Counts c2CorrU c2PosU 2) 0
      = 9/95 := by
    unfold specDynamicFnRateAt
    rw [hdget, hdsum, hdlen]
    norm_num
  refine ⟨h1, h2, ?_⟩
  rw [h1, h2]
  norm_num

/-- C2 (amended): the dynamic false-negative and false-positive rates
equal the base rate times `diameter / configured average_diameter_um`
(the configured mean, not the placed population's mean), and the
corruption state list covers all `n` generated droplets and is computed
from pre-placement data only — no position draw enters it. -/
theorem dynamic_rates_formula (avgUm fnRate fpRate : ℚ) (rawD : ℕ → ℚ)
    (counts : ℕ → ℕ) (corrU : ℕ → ℚ) (n i : ℕ) (hi : i < n) :
    (newDynamicFnRates avgUm fnRate rawD n).getD i 0 =
      fnRate * (diameterUmOfPx (newDiameterPx avgUm (rawD i)) / avgUm) ∧
    (newDynamicFpRates avgUm fpRate rawD n).getD i 0 =
      fpRate * (diameterUmOfPx (newDiameterPx avgUm (rawD i)) / avgUm) ∧
    (newDropletStates avgUm fnRate fpRate rawD counts corrU n).length = n ∧
    (newDropletStates avgUm fnRate fpRate rawD counts corrU n).getD i stateDefault =
      corruptDroplet (counts i) (corrU i)
        (fnRate * (diameterUmOfPx (newDiameterPx avgUm (rawD i)) / avgUm))
        (fpRate * (diameterUmOfPx (newDiameterPx avgUm (rawD i)) / avgUm)) := by
  refine ⟨?_, ?_, ?_, ?_⟩
  · exact getD_range_map _ 0 n i hi
  · exact getD_range_map _ 0 n i hi
  · simp [newDropletStates]
  · exact getD_range_map _ stateDefault n i hi

/-- Witness for the amended C2 at a 1-droplet configuration. -/
theorem dynamic_rates_formula_witness :
    (newDynamicFnRates 100 (1/10) (fun _ => 37) 1).getD 0 0 =
      (1/10) * (diameterUmOfPx (newDiameterPx 100 37) / 100) ∧
    (newDynamicFpRates 100 (1/20) (fun _ => 37) 1).getD 0 0 =
      (1/20) * (diameterUmOfPx (newDiameterPx 100 37) / 100) ∧
    (newDropletStates 100 (1/10) (1/20) (fun _ => 37) (fun _ => 0)
      (fun _ => 0) 1).length = 1 ∧
    (newDropletStates 100 (1/10) (1/20) (fun _ => 37) (fun _ => 0)
      (fun _ => 0) 1).getD 0 stateDefault =
      corruptDroplet 0 0 ((1/10) * (diameterUmOfPx (newDiameterPx 100 37) / 100))
        ((1/20) * (diameterUmOfPx (newDiameterPx 100 37) / 100)) :=
  dynamic_rates_formula 100 (1/10) (1/20) (fun _ => 37) (fun _ => 0)
    (fun _ => 0) 1 0 (by decide)

/-- C4 (counterexample): requesting zero droplets yields an empty
`droplet_data`, and the summary block of `generate_ddpcr_image` then
divides `false_positive` by `total_drops = 0`, raising a
`ZeroDivisionError` instead of reporting zero-valued statistics. -/
theorem newSummary_empty_division_cex :
    newRows 100 100 100 (1/10) (1/20) (fun _ => 37) (fun _ => 0) (fun _ => 0)
      (fun _ _ => (0, 0)) 0 = [] ∧
    newSummary (newRows 100 100 100 (1/10) (1/20) (fun _ => 37) (fun _ => 0)
      (fun _ => 0) (fun _ _ => (0, 0)) 0) = none :=
  ⟨rfl, rfl⟩

/-- C4 (amended): in `calculate_ddpcr_statistics` the divisions by
`total_drops` are guarded — an empty population reports zero confusion
rates and a zero confidence interval without raising — while in
`generate_ddpcr_image` the summary divisions are unguarded but are only
reached with an empty population when `num_droplets = 0`, because for any
positive request the first droplet is always placed. -/
theorem division_guards_amended (f fn : ℕ) (ciL ciU v : ℝ)
    (avgUm W H fnR fpR : ℚ) (rawD : ℕ → ℚ) (counts : ℕ → ℕ) (corrU : ℕ → ℚ)
    (posU : ℕ → ℕ → ℚ × ℚ) (n : ℕ) (hn : n ≠ 0) :
    dataFpRateStat f 0 = 0 ∧ dataFnRateStat fn 0 = 0 ∧
    dataConcCI ciL ciU 0 v = (0, 0) ∧
    (newSummary (newRows avgUm W H fnR fpR rawD counts corrU posU n)).isSome
      = true := by
  refine ⟨by simp [dataFpRateStat], by simp [dataFnRateStat],
    by simp [dataConcCI], ?_⟩
  have hlen : ((newDiametersPx avgUm rawD n).map (fun d => d / 2)).length = n := by
    simp [newDiametersPx]
  have hne : (newDiametersPx avgUm rawD n).map (fun d => d / 2) ≠ [] := by
    intro hnil
    rw [hnil] at hlen
    exact hn hlen.symm
  have hpos := placeDroplets_length_pos W H
    ((newDiametersPx avgUm rawD n).map (fun d => d / 2)) counts posU hne
  have hrows : (newRows avgUm W H fnR fpR rawD counts corrU posU n).length =
      (newPlaced avgUm W H rawD counts posU n).length := by
    simp [newRows]
  have hrpos : 1 ≤ (newRows avgUm W H fnR fpR rawD counts corrU posU n).length := by
    rw [hrows]
    exact hpos
  have hrne : (newRows avgUm W H fnR fpR rawD counts corrU posU n).length ≠ 0 := by
    omega
  simp [newSummary, hrne]

/-- Witness for the amended C4 at one requested droplet. -/
theorem division_guards_amended_witness :
    dataFpRateStat 1 0 = 0 ∧ dataFnRateStat 1 0 = 0 ∧
    dataConcCI 0 0 0 1 = (0, 0) ∧
    (newSummary (newRows 100 100 100 (1/10) (1/20) (fun _ => 37) (fun _ => 0)
      (fun _ => 0) (fun _ _ => (0, 0)) 1)).isSome = true :=
  division_guards_amended 1 1 0 0 1 100 100 100 (1/10) (1/20) (fun _ => 37)
    (fun _ => 0) (fun _ => 0) (fun _ _ => (0, 0)) 1 (by decide)

/-- C5 (counterexample): in `droplets_simulation.py` a raw diameter draw
of 1000 pixels survives `np.clip(d, 1, None)` unchanged, far beyond 1.2
times the configured mean (its example run uses a 150-micrometer mean,
55.5 pixels), so that entry point does not clamp diameters into the band
around the mean. -/
theorem old_clip_unbounded_cex :
    oldDiameterPx 1000 = 1000 ∧
    ¬ oldDiameterPx 1000 ≤ avgDiameterPixels 150 * (12/10) := by
  constructor
  · norm_num [oldDiameterPx, max_def]
  · norm_num [oldDiameterPx, avgDiameterPixels, pixelsPerUm, max_def]

/-- C5 (amended): in `generate_ddpcr_image` of
`droplets_simulation_new.py` and in `calculate_ddpcr_statistics` every
diameter is clamped into `[0.8*mean, 1.2*mean]` (hence never negative for
a nonnegative configured mean); in `droplets_simulation.py` diameters are
only clamped from below at 1 pixel, never negative but with no upper
bound tied to the mean. -/
theorem diameter_clamp_amended (avgUm raw : ℚ) (h : 0 ≤ avgUm) :
    avgDiameterPixels avgUm * (8/10) ≤ newDiameterPx avgUm raw ∧
    newDiameterPx avgUm raw ≤ avgDiameterPixels avgUm * (12/10) ∧
    0 ≤ newDiameterPx avgUm raw ∧
    avgUm * (8/10) ≤ dataDiameterUm avgUm raw ∧
    dataDiameterUm avgUm raw ≤ avgUm * (12/10) ∧
    0 ≤ dataDiameterUm avgUm raw ∧
    1 ≤ oldDiameterPx raw := by
  have hpx : 0 ≤ avgDiameterPixels avgUm := by
    unfold avgDiameterPixels pixelsPerUm
    positivity
  have hlo1 : avgDiameterPixels avgUm * (8/10) ≤ avgDiameterPixels avgUm * (12/10) := by
    nlinarith
  have hlo2 : avgUm * (8/10) ≤ avgUm * (12/10) := by nlinarith
  have h1 : avgDiameterPixels avgUm * (8/10) ≤ newDiameterPx avgUm raw :=
    le_min (le_max_right _ _) hlo1
  have h2 : newDiameterPx avgUm raw ≤ avgDiameterPixels avgUm * (12/10) :=
    min_le_right _ _
  have h3 : avgUm * (8/10) ≤ dataDiameterUm avgUm raw :=
    le_min (le_max_right _ _) hlo2
  have h4 : dataDiameterUm avgUm raw ≤ avgUm * (12/10) := min_le_right _ _
  refine ⟨h1, h2, ?_, h3, h4, ?_, le_max_right _ _⟩
  · nlinarith
  · nlinarith

/-- Witness for the amended C5 at mean 100 micrometers, raw draw 999. -/
theorem diameter_clamp_amended_witness :
    avgDiameterPixels 100 * (8/10) ≤ newDiameterPx 100 999 ∧
    newDiameterPx 100 999 ≤ avgDiameterPixels 100 * (12/10) ∧
    0 ≤ newDiameterPx 100 999 ∧
    (100:ℚ) * (8/10) ≤ dataDiameterUm 100 999 ∧
    dataDiameterUm 100 999 ≤ 100 * (12/10) ∧
    0 ≤ dataDiameterUm 100 999 ∧
    1 ≤ oldDiameterPx 999 :=
  diameter_clamp_amended 100 999 (by norm_num)

/-- C7: for every input, the quantification limit equals exactly 3.3 times
the detection limit, where LOD is `(blank_lambda + 3*sqrt(blank_lambda)) / v`
and `blank_lambda = -ln(1 - false_positive_rate)`. -/
theorem loq_is_3_3_lod (fp v : ℝ) :
    loqCopiesPerUl fp v = 3.3 * lodCopiesPerUl fp v ∧
    lodCopiesPerUl fp v = (blankLambda fp + 3 * Real.sqrt (blankLambda fp)) / v ∧
    blankLambda fp = -Real.log (1 - fp) :=
  ⟨rfl, rfl, rfl⟩

/-- Monotonicity of the concentration-recovery transform on ratios below 1. -/
theorem concRecovery_mono (a b v : ℝ) (hab : a ≤ b) (hb : b < 1) (hv : 0 < v) :
    concRecovery a v ≤ concRecovery b v := by
  unfold concRecovery
  have h1 : (0:ℝ) < 1 - b := by linarith
  have h2 : 1 - b ≤ 1 - a := by linarith
  have hlog : Real.log (1 - b) ≤ Real.log (1 - a) := Real.log_le_log h1 h2
  have hneg : -Real.log (1 - a) ≤ -Real.log (1 - b) := by linarith
  exact (div_le_div_iff_of_pos_right hv).mpr hneg

/-- C6: for a non-empty population with volume `v > 0`, a positive ratio
`0 < p < 1`, and a well-formed binomial interval `0 ≤ L ≤ total*p ≤ U < total`,
the concentration confidence interval obtained by transforming the two
bounds independently brackets the point estimate `-ln(1-p)/v`. -/
theorem concentration_ci_monotone (total : ℕ) (L U p v : ℝ)
    (htot : 0 < total) (hv : 0 < v) (hp : 0 < p) (hL : 0 ≤ L)
    (hLp : L ≤ total * p) (hpU : total * p ≤ U) (hU : U < total) :
    (dataConcCI L U total v).1 ≤ concRecovery p v ∧
    concRecovery p v ≤ (dataConcCI L U total v).2 := by
  have hn : (0:ℝ) < (total : ℝ) := by exact_mod_cast htot
  have hci : dataConcCI L U total v =
      (concRecovery (L / total) v, concRecovery (U / total) v) := by
    simp [dataConcCI, htot]
  have hp1 : p < 1 := by
    have : (total : ℝ) * p < (total : ℝ) * 1 := by
      calc (total : ℝ) * p ≤ U := hpU
        _ < total := hU
        _ = (total : ℝ) * 1 := by ring
    exact lt_of_mul_lt_mul_left this (le_of_lt hn)
  have hLn : L / total ≤ p := by
    rw [div_le_iff₀ hn]
    calc L ≤ total * p := hLp
      _ = p * total := by ring
  have hUn : p ≤ U / total := by
    rw [le_div_iff₀ hn]
    calc p * total = total * p := by ring
      _ ≤ U := hpU
  have hU1 : U / total < 1 := (div_lt_one hn).mpr hU
  rw [hci]
  exact ⟨concRecovery_mono (L / total) p v hLn hp1 hv,
    concRecovery_mono p (U / total) v hUn hU1 hv⟩

/-- Witness for C6 at total = 10, L = 2, U = 8, p = 1/2, v = 1. -/
theorem concentration_ci_monotone_witness :
    (dataConcCI 2 8 10 1).1 ≤ concRecovery (1/2) 1 ∧
    concRecovery (1/2) 1 ≤ (dataConcCI 2 8 10 1).2 :=
  concentration_ci_monotone 10 2 8 (1/2) 1 (by norm_num) (by norm_num)
    (by norm_num) (by norm_num) (by norm_num) (by norm_num) (by norm_num)

/-- C8: with `false_positive_rate = 0`, the blank rate is 0, the LOD is 0,
and a droplet with `true_count == 0` is never called positive: for any
relative diameter `rel`, its dynamic false-positive probability is
`0 * rel = 0` and a uniform draw `u ≥ 0` is never below it, so both the
statistics path and the image path record a true negative. -/
theorem zero_fp_no_false_positives (v : ℝ) (rel u dfn : ℚ) (hu : 0 ≤ u) :
    blankLambda 0 = 0 ∧ lodCopiesPerUl 0 v = 0 ∧
    classifyDroplet 0 u dfn (0 * rel) = Classification.trueNegative ∧
    corruptDroplet 0 u dfn (0 * rel) = ⟨0, false, false⟩ := by
  have hbl : blankLambda 0 = 0 := by simp [blankLambda]
  have hflip : ¬ (u < 0 * rel) := by
    rw [zero_mul]
    exact not_lt.mpr hu
  refine ⟨hbl, ?_, ?_, ?_⟩
  · rw [lodCopiesPerUl, hbl]
    simp
  · simp [classifyDroplet, hflip, hu]
  · simp [corruptDroplet, hflip, hu]

/-- Witness for C8 at v = 1, rel = 2, u = 1/2, dfn = 1/10. -/
theorem zero_fp_no_false_positives_witness :
    blankLambda 0 = 0 ∧ lodCopiesPerUl 0 1 = 0 ∧
    classifyDroplet 0 (1/2) (1/10) (0 * 2) = Classification.trueNegative ∧
    corruptDroplet 0 (1/2) (1/10) (0 * 2) = ⟨0, false, false⟩ :=
  zero_fp_no_false_positives 1 2 (1/2) (1/10) (by norm_num)

/-- C9: `simulate_distribution` fails exactly when no lambda is set and
`get_empty_ratio` fails exactly when no distribution has been simulated;
in the error cases the simulator state is returned unchanged
(`get_empty_ratio` never mutates state at all), and once the simulator is
parameterized the same calls succeed, with `simulate_distribution` storing
its draw as the distribution. -/
theorem simulator_gating (sim : DigitalPCRSimulator) (draws : List ℕ) :
    (exceptOk (sim.simulate_distribution draws).1 = false ↔ sim.lambda_value = none) ∧
    (sim.lambda_value = none → (sim.simulate_distribution draws).2 = sim) ∧
    (exceptOk sim.getEmptyRatioPair.1 = false ↔ sim.distribution = none) ∧
    sim.getEmptyRatioPair.2 = sim ∧
    (∀ l, sim.lambda_value = some l →
      (sim.simulate_distribution draws).1 = Except.ok draws ∧
      (sim.simulate_distribution draws).2 = { sim with distribution := some draws }) ∧
    (∀ d, sim.distribution = some d → exceptOk sim.getEmptyRatioPair.1 = true) := by
  refine ⟨?_, ?_, ?_, ?_, ?_, ?_⟩
  · cases h : sim.lambda_value with
    | none => simp [DigitalPCRSimulator.simulate_distribution, h, exceptOk]
    | some l => simp [DigitalPCRSimulator.simulate_distribution, h, exceptOk]
  · intro h
    simp [DigitalPCRSimulator.simulate_distribution, h]
  · cases h : sim.distribution with
    | none => simp [DigitalPCRSimulator.getEmptyRatioPair, h, exceptOk]
    | some d => simp [DigitalPCRSimulator.getEmptyRatioPair, h, exceptOk]
  · cases h : sim.distribution with
    | none => simp [DigitalPCRSimulator.getEmptyRatioPair, h]
    | some d => simp [DigitalPCRSimulator.getEmptyRatioPair, h]
  · intro l h
    constructor
    · simp [DigitalPCRSimulator.simulate_distribution, h]
    · simp [DigitalPCRSimulator.simulate_distribution, h]
  · intro d h
    simp [DigitalPCRSimulator.getEmptyRatioPair, h, exceptOk]

/-- Witness for C9: a freshly initialized simulator (no lambda) has
`simulate_distribution` fail and leave the state unchanged. -/
theorem simulator_gating_witness :
    exceptOk ((DigitalPCRSimulator.init 3).simulate_distribution [2, 0, 1]).1 = false ∧
    ((DigitalPCRSimulator.init 3).simulate_distribution [2, 0, 1]).2 =
      DigitalPCRSimulator.init 3 :=
  ⟨(simulator_gating (DigitalPCRSimulator.init 3) [2, 0, 1]).1.mpr rfl,
    (simulator_gating (DigitalPCRSimulator.init 3) [2, 0, 1]).2.1 rfl⟩

/-- C10: a simulator constructed with `n_droplets = 0` has
`set_lambda_from_copies` raise a division-by-zero error for every
`total_copies` value, leaving the state unchanged. -/
theorem set_lambda_zero_droplets_raises (total_copies : ℚ) :
    ((DigitalPCRSimulator.init 0).set_lambda_from_copies total_copies).1 =
      Except.error ("ZeroDivisionError") ∧
    ((DigitalPCRSimulator.init 0).set_lambda_from_copies total_copies).2 =
      DigitalPCRSimulator.init 0 := by
  constructor
  · simp [DigitalPCRSimulator.set_lambda_from_copies, DigitalPCRSimulator.init]
  · simp [DigitalPCRSimulator.set_lambda_from_copies, DigitalPCRSimulator.init]
